import Mathlib

/-!
Verification of `generate_master_feed.py`, a script that discovers today's
active rosters, fetches standard and advanced game logs, merges them per
(player, game), derives combination statistics and writes a sorted CSV.

Shallow embedding conventions:
* Python floats are modelled as exact rationals (ℚ); non-finite floats
  (`inf`, `nan`) and underscore digit separators are outside the model.
* JSON `null` / absent numeric fields are `Option` values.
* The network is an oracle passed as a function argument; `time.sleep` is
  recorded as a rational number of seconds in the loop's step result.
-/

namespace NBA

/-- Python compares characters (hence strings) by code point. -/
def chLt (a b : Char) : Bool := decide (a.toNat < b.toNat)

/-- Lexicographic `<` on lists of characters: the embedding of Python's
string comparison `s1 < s2` (shorter prefix is smaller). -/
def lexLt : List Char → List Char → Bool
  | _, [] => false
  | [], _ :: _ => true
  | a :: as, b :: bs => chLt a b || (a == b && lexLt as bs)

/-- Python string `<` via the underlying character list. -/
def pyStrLt (a b : String) : Bool := lexLt a.data b.data

/-- Python slice `s[:n]` on a string (first `n` code points). -/
def strTake (s : String) (n : Nat) : String := String.mk (s.data.take n)

/-- Python `c in s` membership of a character in a string. -/
def strHasChar (s : String) (c : Char) : Bool := s.data.contains c

/-- Python `s.split(sep)` for a one-character separator, on character
lists: every occurrence splits, adjacent separators give empty parts. -/
def splitOnChar (c : Char) : List Char → List (List Char)
  | [] => [[]]
  | a :: as =>
    match splitOnChar c as with
    | [] => if a == c then [[], []] else [[a]]
    | h :: t => if a == c then [] :: h :: t else (a :: h) :: t

/-- Value of a digit run, most significant first. -/
def digitsToNat (l : List Char) : Nat :=
  l.foldl (fun n c => 10 * n + (c.toNat - 48)) 0

/-- Python `str.strip()`: drop leading and trailing whitespace. -/
def stripWS (l : List Char) : List Char :=
  ((l.dropWhile Char.isWhitespace).reverse.dropWhile Char.isWhitespace).reverse

/-- Split an optional leading sign from a numeric literal body,
returning the sign as `1` or `-1`. -/
def splitSign : List Char → Int × List Char
  | '+' :: r => (1, r)
  | '-' :: r => (-1, r)
  | r => (1, r)

/-- Python `int(s)` on a string: strip whitespace, optional sign, then a
nonempty run of ASCII digits; anything else raises (`none`). Unicode
digits and `_` separators are outside the model. -/
def pyIntChars (l : List Char) : Option Int :=
  let t := stripWS l
  let s := splitSign t
  if s.2 ≠ [] ∧ s.2.all Char.isDigit then some (s.1 * digitsToNat s.2) else none

/-- Python `int(s)` on a `String`. -/
def pyInt (s : String) : Option Int := pyIntChars s.data

/-- Mantissa of a float literal: `digits [. digits]` with at least one
digit overall. Returns its exact rational value. -/
def pyMantissa (l : List Char) : Option ℚ :=
  let ip := l.takeWhile (fun c => c ≠ '.')
  let rest := l.dropWhile (fun c => c ≠ '.')
  let fp := match rest with
    | [] => some ([] : List Char)
    | '.' :: f => some f
    | _ => none
  match fp with
  | none => none
  | some f =>
    if ip.all Char.isDigit ∧ f.all Char.isDigit ∧ (ip ≠ [] ∨ f ≠ []) then
      some ((digitsToNat ip : ℚ) + (digitsToNat f : ℚ) / (10 : ℚ) ^ f.length)
    else none

/-- Exponent part of a float literal (after `e`/`E`): optional sign and a
nonempty digit run. -/
def pyExponent (l : List Char) : Option Int :=
  let s := splitSign l
  if s.2 ≠ [] ∧ s.2.all Char.isDigit then some (s.1 * digitsToNat s.2) else none

/-- Scale a rational by a power of ten with integer exponent. -/
def scalePow10 (q : ℚ) : Int → ℚ
  | Int.ofNat n => q * (10 : ℚ) ^ n
  | Int.negSucc n => q / (10 : ℚ) ^ (n + 1)

/-- Python `float(s)` on a character list: strip whitespace, optional
sign, mantissa, optional `e`/`E` exponent. `inf`/`nan` and `_`
separators are outside the model (ℚ has no non-finite values). -/
def pyFloatChars (l : List Char) : Option ℚ :=
  let t := stripWS l
  let s := splitSign t
  let mant := s.2.takeWhile (fun c => c ≠ 'e' ∧ c ≠ 'E')
  let rest := s.2.dropWhile (fun c => c ≠ 'e' ∧ c ≠ 'E')
  match pyMantissa mant with
  | none => none
  | some m =>
    match rest with
    | [] => some ((s.1 : ℚ) * m)
    | _ :: ex =>
      match pyExponent ex with
      | none => none
      | some e => some ((s.1 : ℚ) * scalePow10 m e)

/-- Python `float(s)` on a `String`. -/
def pyFloat (s : String) : Option ℚ := pyFloatChars s.data

/-- Round a rational to the nearest integer, ties to even: the rounding
Python's `round` uses. -/
def halfEvenInt (q : ℚ) : Int :=
  let f : Int := Rat.floor q
  let r : ℚ := q - (f : ℚ)
  if r < 1 / 2 then f
  else if 1 / 2 < r then f + 1
  else if f % 2 = 0 then f else f + 1

/-- Python `round(q, n)` (banker's rounding at `n` decimal places),
on the exact rational value. -/
def pyRound (q : ℚ) (n : Nat) : ℚ :=
  (halfEvenInt (q * (10 : ℚ) ^ n) : ℚ) / (10 : ℚ) ^ n

/-- `str(s['min'])`: the raw `min` field is JSON null or a string; Python
`str(None)` is the string `"None"`. -/
def pyStr : Option String → String
  | none => "None"
  | some s => s

/-- A player object of a standard stat line (`s['player']`). -/
structure Player where
  id : Nat
  first_name : String
  last_name : String
deriving DecidableEq, Repr

/-- A team object of a standard stat line (`s['team']`). -/
structure Team where
  id : Nat
  abbreviation : String
deriving DecidableEq, Repr

/-- A game object of a standard stat line (`s['game']`): the fields the
merger reads. -/
structure Game where
  id : Nat
  date : String
  home_team_id : Nat
  visitor_team_id : Nat
deriving DecidableEq, Repr

/-- A standard stat record (`std_logs` element). `min` is null or a
string; the counting stats are null/absent (`none`) or integers. -/
structure StdLog where
  player : Player
  team : Team
  game : Game
  min : Option String
  pts : Option Int
  reb : Option Int
  ast : Option Int
  stl : Option Int
  blk : Option Int
  turnover : Option Int
deriving DecidableEq, Repr

/-- An advanced stat record (`adv_logs` element): `a['player']['id']` and
`a['game']['id']` are flattened to `player_id` and `game_id`; the
metric fields may be null. -/
structure AdvLog where
  player_id : Nat
  game_id : Nat
  usage_percentage : Option ℚ
  defensive_rating : Option ℚ
  net_rating : Option ℚ
  pace : Option ℚ
deriving DecidableEq, Repr

/-- One output row of the CSV, with the exact column set of the script. -/
structure Row where
  Date : String
  Season : Nat
  Player : String
  Team : String
  Loc : String
  Opp_ID : Nat
  MIN : ℚ
  PTS : Int
  REB : Int
  AST : Int
  STL : Int
  BLK : Int
  TOV : Int
  PRA : Int
  PR : Int
  PA : Int
  Stocks : Int
  Usage : ℚ
  DefRtg : Option ℚ
  NetRtg : Option ℚ
  Pace : Option ℚ
deriving DecidableEq, Repr

/-- The DNP skip test of line 143:
`if s['min'] in [None, "0", "00", "0:00", ""]: continue`. -/
def isDNP : Option String → Bool
  | none => true
  | some m => m == "0" || m == "00" || m == "0:00" || m == ""

/-- The minutes parse of lines 146-150:
`mins = int(m.split(":")[0]) + int(m.split(":")[1]) / 60 if ":" in m
else float(m)` inside `try`, with `except: mins = 0.0`. -/
def parseMins (m : String) : ℚ :=
  if strHasChar m ':' then
    let parts := splitOnChar ':' m.data
    match pyIntChars (parts.getD 0 []), pyIntChars (parts.getD 1 []) with
    | some a, some b => (a : ℚ) + (b : ℚ) / 60
    | some _, none => 0
    | none, _ => 0
  else
    match pyFloatChars m.data with
    | some v => v
    | none => 0

/-- The advanced-log index of lines 135-138: a Python dict built by
`adv_map[key] = a` over the list, embedded as the lookup function it
defines (assignment overwrites the key's previous value). -/
def buildAdvMap (advs : List AdvLog) : Nat × Nat → Option AdvLog :=
  advs.foldl
    (fun mp a => fun k =>
      if k = (a.player_id, a.game_id) then some a else mp k)
    (fun _ => none)

/-- The row construction of lines 146-199 for one non-skipped standard
record, given the advanced-log lookup. -/
def makeRow (advMap : Nat × Nat → Option AdvLog) (s : StdLog) : Row :=
  let m := pyStr s.min
  let mins := parseMins m
  let adv := advMap (s.player.id, s.game.id)
  let game := s.game
  let team := s.team
  let is_home := team.id == game.home_team_id
  let opp_id := if is_home then game.visitor_team_id else game.home_team_id
  let pts := s.pts.getD 0
  let reb := s.reb.getD 0
  let ast := s.ast.getD 0
  { Date := strTake game.date 10
    Season := if pyStrLt "2024-09-01" game.date then 2025 else 2024
    Player := s.player.first_name ++ " " ++ s.player.last_name
    Team := team.abbreviation
    Loc := if is_home then "Home" else "Away"
    Opp_ID := opp_id
    MIN := pyRound mins 2
    PTS := pts
    REB := reb
    AST := ast
    STL := s.stl.getD 0
    BLK := s.blk.getD 0
    TOV := s.turnover.getD 0
    PRA := pts + reb + ast
    PR := pts + reb
    PA := pts + ast
    Stocks := s.stl.getD 0 + s.blk.getD 0
    Usage := pyRound ((adv.bind AdvLog.usage_percentage).getD 0 * 100) 1
    DefRtg := adv.bind AdvLog.defensive_rating
    NetRtg := adv.bind AdvLog.net_rating
    Pace := adv.bind AdvLog.pace }

/-- The row-accumulation loop of lines 140-199: each standard record is
skipped when its `min` is a DNP sentinel, otherwise contributes one row. -/
def mergeRows (stds : List StdLog) (advs : List AdvLog) : List Row :=
  stds.filterMap
    (fun s => if isDNP s.min then none else some (makeRow (buildAdvMap advs) s))

/-- The comparator realised by line 202,
`df.sort_values(['Date', 'Player'], ascending=[False, True])`:
`Date` descending first, then `Player` ascending, comparing strings the
way Python/pandas does. -/
def rowLE (a b : Row) : Bool :=
  if a.Date = b.Date then !pyStrLt b.Player a.Player else pyStrLt b.Date a.Date

/-- The sort of line 202. pandas sorts on several columns with
`numpy.lexsort`, a stable lexicographic sort, embedded as a stable merge
sort under `rowLE`. -/
def sortRows (rows : List Row) : List Row := rows.mergeSort rowLE

/-- Lines 201-205: `pd.DataFrame(rows)` has a `Date` column exactly when
`rows` is nonempty (an empty frame has no columns), so
`df.sort_values(['Date', 'Player'], ...)` raises `KeyError` on an empty
row list and the script ends before `df.to_csv`. `Except.ok rows`
means the CSV file was written with exactly `rows`; `Except.error`
means the exception propagated and no file was written. -/
def mergeAndExport (stds : List StdLog) (advs : List AdvLog) :
    Except String (List Row) :=
  let rows := mergeRows stds advs
  if rows.isEmpty then Except.error "KeyError: Date"
  else Except.ok (sortRows rows)

/-- What one request of a pagination loop of `fetch_game_logs` returns:
a raised exception, or an HTTP response with a status code, a `data`
array and an optional `meta.next_cursor`. -/
inductive Resp (α : Type) where
  | exn : Resp α
  | http (status : Nat) (data : List α) (next_cursor : Option String) : Resp α
deriving DecidableEq, Repr

/-- Whether a response is an HTTP 429 rate-limit response
(`r.status_code == 429`). -/
def Resp.is429 {α : Type} : Resp α → Bool
  | .exn => false
  | .http status _ _ => status == 429

/-- State of one pagination loop of `fetch_game_logs` (lines 96-109 and
112-125 are the same loop against different endpoints): the current
`cursor`, the accumulated records, and how many requests were issued
(the oracle is indexed by it, so a retry reaches a possibly different
response of the same endpoint). -/
structure FetchState (α : Type) where
  cursor : Option String
  acc : List α
  t : Nat
deriving DecidableEq, Repr

/-- Outcome of one loop iteration: continue after sleeping
`sleepSecs` seconds, or leave the loop with the accumulated records. -/
inductive FetchStep (α : Type) where
  | more (sleepSecs : ℚ) (st : FetchState α) : FetchStep α
  | done (acc : List α) : FetchStep α
deriving DecidableEq, Repr

/-- One iteration of a `fetch_game_logs` pagination loop, given the
endpoint as a request oracle `req` (request number, cursor ↦ response):
a 429 sleeps 2 seconds and retries with the cursor untouched
(`time.sleep(2); continue`); an exception leaves the loop keeping the
partial accumulation (`except: break`); otherwise the page's `data`
extends the accumulation and the loop ends exactly when
`meta.next_cursor` is absent, else continues after `time.sleep(0.12)`. -/
def pageStep {α : Type} (req : Nat → Option String → Resp α)
    (st : FetchState α) : FetchStep α :=
  match req st.t st.cursor with
  | .exn => .done st.acc
  | .http status data next =>
    if status == 429 then .more 2 ⟨st.cursor, st.acc, st.t + 1⟩
    else
      let acc := st.acc ++ data
      match next with
      | none => .done acc
      | some c => .more (12 / 100) ⟨some c, acc, st.t + 1⟩

/-- Run a pagination loop for up to `k` iterations: `Sum.inl` is a still
running loop, `Sum.inr` the records it left with. -/
def runPages {α : Type} (req : Nat → Option String → Resp α) :
    Nat → FetchState α → FetchState α ⊕ List α
  | 0, st => Sum.inl st
  | k + 1, st =>
    match pageStep req st with
    | .more _ st' => runPages req k st'
    | .done acc => Sum.inr acc

/-- The observable actions of `main` (lines 208-217): calling
`fetch_game_logs`, writing the CSV, or an exception escaping
`merge_and_export`. -/
inductive MainEvent where
  | fetchLogs (ids : List Nat) : MainEvent
  | writeCsv (rows : List Row) : MainEvent
  | raiseErr (msg : String) : MainEvent
deriving DecidableEq, Repr

/-- The trace of `main` given the identifier list roster discovery
returned and the fetcher as an oracle: `if not ids: return` ends the
run with no action at all; otherwise the logs are fetched and merged. -/
def mainRun (ids : List Nat)
    (fetch : List Nat → List StdLog × List AdvLog) : List MainEvent :=
  if ids.isEmpty then []
  else
    let logs := fetch ids
    MainEvent.fetchLogs ids ::
      (match mergeAndExport logs.1 logs.2 with
       | .ok rows => [MainEvent.writeCsv rows]
       | .error e => [MainEvent.raiseErr e])

/-! ## Sample records (the scenario of the spec's testable properties) -/

/-- A concrete player for witness computations. -/
def samplePlayer : Player :=
  { id := 237, first_name := "LeBron", last_name := "James" }

/-- A concrete team for witness computations. -/
def sampleTeam : Team := { id := 14, abbreviation := "LAL" }

/-- A concrete home game for witness computations. -/
def sampleGame : Game :=
  { id := 100, date := "2024-10-22", home_team_id := 14, visitor_team_id := 2 }

/-- The spec's scenario record: `min:"35:30", pts:20, reb:5, ast:7,
stl:1, blk:0, turnover:3` on a home game. -/
def sampleStd : StdLog :=
  { player := samplePlayer, team := sampleTeam, game := sampleGame,
    min := some "35:30", pts := some 20, reb := some 5, ast := some 7,
    stl := some 1, blk := some 0, turnover := some 3 }

/-- The scenario record with a did-not-play minutes value. -/
def sampleDNP : StdLog := { sampleStd with min := some "0:00" }

/-- A concrete advanced record matching `sampleStd`'s key. -/
def sampleAdv : AdvLog :=
  { player_id := 237, game_id := 100, usage_percentage := some (31 / 100),
    defensive_rating := some 110, net_rating := some 5, pace := some 96 }

/-- A second advanced record with the same key as `sampleAdv` but
different metric values, to exercise duplicate-key overwriting. -/
def sampleAdv2 : AdvLog :=
  { sampleAdv with usage_percentage := some (35 / 100), pace := some 99 }

/-! ## Helper lemmas -/

theorem isDNP_iff (o : Option String) :
    isDNP o = true ↔
      o ∈ ([none, some "0", some "00", some "0:00", some ""] : List (Option String)) := by
  cases o with
  | none => simp [isDNP]
  | some m =>
    simp only [isDNP, Bool.or_eq_true, beq_iff_eq, List.mem_cons,
      List.mem_singleton, Option.some_inj, reduceCtorEq, false_or]
    tauto

theorem mem_mergeRows_of {stds : List StdLog} {advs : List AdvLog} {s : StdLog}
    (hs : s ∈ stds) (hd : isDNP s.min = false) :
    makeRow (buildAdvMap advs) s ∈ mergeRows stds advs := by
  simp only [mergeRows, List.mem_filterMap]
  exact ⟨s, hs, by simp [hd]⟩

theorem of_mem_mergeRows {stds : List StdLog} {advs : List AdvLog} {r : Row}
    (h : r ∈ mergeRows stds advs) :
    ∃ s, s ∈ stds ∧ isDNP s.min = false ∧ r = makeRow (buildAdvMap advs) s := by
  simp only [mergeRows, List.mem_filterMap] at h
  obtain ⟨s, hs, hif⟩ := h
  by_cases hd : isDNP s.min
  · simp [hd] at hif
  · refine ⟨s, hs, by simpa using hd, ?_⟩
    rw [if_neg (by simpa using hd)] at hif
    exact (Option.some_inj.mp hif).symm

theorem getLast?_cons_or {α : Type} (a : α) (l : List α) :
    (a :: l).getLast? = l.getLast?.or (some a) := by
  induction l generalizing a with
  | nil => rfl
  | cons b t ih =>
    rw [List.getLast?_cons_cons, ih b]
    cases h : t.getLast? <;> simp [Option.or]

theorem buildAdvMap_foldl (advs : List AdvLog)
    (m0 : Nat × Nat → Option AdvLog) (k : Nat × Nat) :
    advs.foldl
        (fun mp a => fun j =>
          if j = (a.player_id, a.game_id) then some a else mp j) m0 k
      = ((advs.filter fun a =>
          decide ((a.player_id, a.game_id) = k)).getLast?).or (m0 k) := by
  induction advs generalizing m0 with
  | nil => simp
  | cons a t ih =>
    rw [List.foldl_cons, ih]
    by_cases hk : (a.player_id, a.game_id) = k
    · rw [List.filter_cons_of_pos (by simpa using hk), getLast?_cons_or,
        Option.or_assoc, if_pos hk.symm]
      rfl
    · rw [List.filter_cons_of_neg (by simpa using hk),
        if_neg (fun h => hk h.symm)]

theorem buildAdvMap_eq_getLast (advs : List AdvLog) (k : Nat × Nat) :
    buildAdvMap advs k
      = (advs.filter fun a => decide ((a.player_id, a.game_id) = k)).getLast? := by
  rw [buildAdvMap, buildAdvMap_foldl, Option.or_none]

theorem buildAdvMap_eq_none {advs : List AdvLog} {k : Nat × Nat}
    (h : ∀ a ∈ advs, (a.player_id, a.game_id) ≠ k) :
    buildAdvMap advs k = none := by
  rw [buildAdvMap_eq_getLast]
  have hf : advs.filter (fun a => decide ((a.player_id, a.game_id) = k)) = [] := by
    rw [List.filter_eq_nil_iff]
    intro a ha
    simp [h a ha]
  rw [hf]
  rfl

theorem makeRow_MIN (mp : Nat × Nat → Option AdvLog) (s : StdLog) :
    (makeRow mp s).MIN = pyRound (parseMins (pyStr s.min)) 2 := rfl

theorem makeRow_Season (mp : Nat × Nat → Option AdvLog) (s : StdLog) :
    (makeRow mp s).Season =
      (if pyStrLt "2024-09-01" s.game.date then 2025 else 2024) := rfl

theorem makeRow_adv (mp : Nat × Nat → Option AdvLog) (s : StdLog) :
    (makeRow mp s).Usage
        = pyRound (((mp (s.player.id, s.game.id)).bind
            AdvLog.usage_percentage).getD 0 * 100) 1
      ∧ (makeRow mp s).DefRtg
          = (mp (s.player.id, s.game.id)).bind AdvLog.defensive_rating
      ∧ (makeRow mp s).NetRtg
          = (mp (s.player.id, s.game.id)).bind AdvLog.net_rating
      ∧ (makeRow mp s).Pace
          = (mp (s.player.id, s.game.id)).bind AdvLog.pace :=
  ⟨rfl, rfl, rfl, rfl⟩

theorem pyRound_zero (n : Nat) : pyRound 0 n = 0 := by
  have hf : Rat.floor 0 = 0 := rfl
  have h0 : halfEvenInt (0 * (10 : ℚ) ^ n) = 0 := by
    simp only [zero_mul, halfEvenInt, hf]
    norm_num
  rw [pyRound, h0]
  norm_num

/-! ## Claims -/

/-- C2: a standard record is excluded from the output exactly when its
`min` value is one of `null`, `"0"`, `"00"`, `"0:00"` or the empty
string, whatever its other fields are: the emitted rows are the rows of
exactly the records whose `min` is outside that sentinel set. -/
theorem claim_C2_dnp_sentinels (stds : List StdLog) (advs : List AdvLog) :
    mergeRows stds advs
      = (stds.filter fun s =>
          decide (s.min ∉
            ([none, some "0", some "00", some "0:00", some ""] :
              List (Option String)))).map (makeRow (buildAdvMap advs)) := by
  induction stds with
  | nil => rfl
  | cons s t ih =>
    simp only [mergeRows] at ih ⊢
    by_cases hd : isDNP s.min
    · have h2 : (fun s : StdLog => decide (s.min ∉
          ([none, some "0", some "00", some "0:00", some ""] :
            List (Option String)))) s = false := by
        simp [(isDNP_iff s.min).mp hd]
      rw [List.filterMap_cons_none (by simp [hd]), List.filter_cons,
        if_neg (by simp only [h2]; exact Bool.false_ne_true)]
      exact ih
    · have h2 : (fun s : StdLog => decide (s.min ∉
          ([none, some "0", some "00", some "0:00", some ""] :
            List (Option String)))) s = true := by
        simp only [decide_eq_true_iff]
        intro hmem
        exact hd ((isDNP_iff s.min).mpr hmem)
      rw [List.filterMap_cons_some (b := makeRow (buildAdvMap advs) s)
          (by simp [hd]), List.filter_cons,
        if_pos (by simp only [h2]), List.map_cons]
      exact congrArg _ ih

/-- C3: every output row satisfies `PRA = PTS + REB + AST`,
`PR = PTS + REB`, `PA = PTS + AST` and `Stocks = STL + BLK` exactly, the
row's stat columns being the record's stats with absent/null taken as
zero. -/
theorem claim_C3_derived_stats (stds : List StdLog) (advs : List AdvLog)
    (r : Row) (hr : r ∈ mergeRows stds advs) :
    (r.PRA = r.PTS + r.REB + r.AST ∧ r.PR = r.PTS + r.REB
        ∧ r.PA = r.PTS + r.AST ∧ r.Stocks = r.STL + r.BLK)
      ∧ ∃ s, s ∈ stds ∧ r = makeRow (buildAdvMap advs) s
          ∧ r.PTS = s.pts.getD 0 ∧ r.REB = s.reb.getD 0
          ∧ r.AST = s.ast.getD 0 ∧ r.STL = s.stl.getD 0
          ∧ r.BLK = s.blk.getD 0 := by
  obtain ⟨s, hs, _, hr⟩ := of_mem_mergeRows hr
  subst hr
  exact ⟨⟨rfl, rfl, rfl, rfl⟩, s, hs, rfl, rfl, rfl, rfl, rfl, rfl⟩

/-- C4: a standard record whose `(player_id, game_id)` has no exact
match in the advanced list still yields a row, with `Usage = 0` and
`DefRtg`, `NetRtg`, `Pace` null. -/
theorem claim_C4_missing_advanced (stds : List StdLog) (advs : List AdvLog)
    (s : StdLog) (hs : s ∈ stds) (hd : isDNP s.min = false)
    (hnone : ∀ a ∈ advs, (a.player_id, a.game_id) ≠ (s.player.id, s.game.id)) :
    buildAdvMap advs (s.player.id, s.game.id) = none
      ∧ makeRow (buildAdvMap advs) s ∈ mergeRows stds advs
      ∧ (makeRow (buildAdvMap advs) s).Usage = 0
      ∧ (makeRow (buildAdvMap advs) s).DefRtg = none
      ∧ (makeRow (buildAdvMap advs) s).NetRtg = none
      ∧ (makeRow (buildAdvMap advs) s).Pace = none := by
  have h0 : buildAdvMap advs (s.player.id, s.game.id) = none :=
    buildAdvMap_eq_none hnone
  obtain ⟨hu, hdr, hnr, hp⟩ := makeRow_adv (buildAdvMap advs) s
  refine ⟨h0, mem_mergeRows_of hs hd, ?_, ?_, ?_, ?_⟩
  · rw [hu, h0]
    simpa using pyRound_zero 1
  · rw [hdr, h0]; rfl
  · rw [hnr, h0]; rfl
  · rw [hp, h0]; rfl

/-- C6: the advanced-record map sends a key carried by several advanced
records to the last such record in list order, and a joined row for
that key takes its advanced columns from that last record. -/
theorem claim_C6_last_record_wins (advs : List AdvLog) (k : Nat × Nat) :
    buildAdvMap advs k
        = (advs.filter fun a => decide ((a.player_id, a.game_id) = k)).getLast?
      ∧ ∀ (stds : List StdLog) (s : StdLog) (a : AdvLog),
          s ∈ stds → isDNP s.min = false → (s.player.id, s.game.id) = k →
          (advs.filter fun x =>
              decide ((x.player_id, x.game_id) = k)).getLast? = some a →
          makeRow (buildAdvMap advs) s ∈ mergeRows stds advs
            ∧ (makeRow (buildAdvMap advs) s).Usage
                = pyRound (a.usage_percentage.getD 0 * 100) 1
            ∧ (makeRow (buildAdvMap advs) s).DefRtg = a.defensive_rating
            ∧ (makeRow (buildAdvMap advs) s).NetRtg = a.net_rating
            ∧ (makeRow (buildAdvMap advs) s).Pace = a.pace := by
  refine ⟨buildAdvMap_eq_getLast advs k, ?_⟩
  intro stds s a hs hd hk hlast
  have hmap : buildAdvMap advs (s.player.id, s.game.id) = some a := by
    rw [hk, buildAdvMap_eq_getLast, hlast]
  obtain ⟨hu, hdr, hnr, hp⟩ := makeRow_adv (buildAdvMap advs) s
  refine ⟨mem_mergeRows_of hs hd, ?_, ?_, ?_, ?_⟩
  · rw [hu, hmap]; rfl
  · rw [hdr, hmap]; rfl
  · rw [hnr, hmap]; rfl
  · rw [hp, hmap]; rfl

/-- C7: every output row's `Season` is `2025` when the game's date
string is lexicographically greater than `"2024-09-01"` and `2024`
otherwise; the boundary date itself gives `2024`. -/
theorem claim_C7_season_boundary (stds : List StdLog) (advs : List AdvLog)
    (s : StdLog) (hs : s ∈ stds) (hd : isDNP s.min = false) :
    makeRow (buildAdvMap advs) s ∈ mergeRows stds advs
      ∧ (makeRow (buildAdvMap advs) s).Season
          = (if pyStrLt "2024-09-01" s.game.date then 2025 else 2024)
      ∧ (s.game.date = "2024-09-01" →
          (makeRow (buildAdvMap advs) s).Season = 2024) := by
  refine ⟨mem_mergeRows_of hs hd, makeRow_Season _ s, ?_⟩
  intro hdate
  rw [makeRow_Season _ s, hdate]
  rfl

theorem pageStep_of_429 {α : Type} (req : Nat → Option String → Resp α)
    (st : FetchState α) (h429 : (req st.t st.cursor).is429 = true) :
    pageStep req st = FetchStep.more 2 ⟨st.cursor, st.acc, st.t + 1⟩ := by
  cases hreq : req st.t st.cursor with
  | exn => rw [hreq] at h429; simp [Resp.is429] at h429
  | http status data next =>
    rw [hreq] at h429
    simp only [Resp.is429] at h429
    simp [pageStep, hreq, h429]

theorem runPages_of_429 {α : Type} (req : Nat → Option String → Resp α) :
    ∀ (k : Nat) (st : FetchState α),
      (∀ n : Nat, (req (st.t + n) st.cursor).is429 = true) →
      runPages req k st = Sum.inl ⟨st.cursor, st.acc, st.t + k⟩ := by
  intro k
  induction k with
  | zero => intro st hall; simp [runPages]
  | succ k ih =>
    intro st hall
    have h0 : (req st.t st.cursor).is429 = true := by simpa using hall 0
    have hstep := pageStep_of_429 req st h0
    have h1 : runPages req (k + 1) st
        = runPages req k ⟨st.cursor, st.acc, st.t + 1⟩ := by
      rw [runPages, hstep]
    have hall1 : ∀ n : Nat,
        (req ((⟨st.cursor, st.acc, st.t + 1⟩ : FetchState α).t + n)
          (⟨st.cursor, st.acc, st.t + 1⟩ : FetchState α).cursor).is429 = true := by
      intro n
      have := hall (1 + n)
      simpa [Nat.add_assoc] using this
    rw [h1, ih ⟨st.cursor, st.acc, st.t + 1⟩ hall1]
    have harith : st.t + 1 + k = st.t + (k + 1) := by omega
    simp [harith]

/-- C1: for every standard record not skipped as did-not-play, the
emitted row exists and its minutes value follows the parse of lines
146-150: with a `:` present it is the integer before the `:` plus the
integer after it divided by 60 (`"35:30"` is 35.5), otherwise the
string read as a float, and 0.0 whenever either read raises. -/
theorem claim_C1_minutes_parse (stds : List StdLog) (advs : List AdvLog)
    (s : StdLog) (m : String) (hs : s ∈ stds) (hm : s.min = some m)
    (hd : isDNP s.min = false) :
    makeRow (buildAdvMap advs) s ∈ mergeRows stds advs
      ∧ (strHasChar m ':' = true →
          (∀ a b : Int,
              pyIntChars ((splitOnChar ':' m.data).getD 0 []) = some a →
              pyIntChars ((splitOnChar ':' m.data).getD 1 []) = some b →
              parseMins m = (a : ℚ) + (b : ℚ) / 60)
          ∧ ((pyIntChars ((splitOnChar ':' m.data).getD 0 []) = none ∨
              pyIntChars ((splitOnChar ':' m.data).getD 1 []) = none) →
              parseMins m = 0))
      ∧ (strHasChar m ':' = false →
          (∀ v : ℚ, pyFloatChars m.data = some v → parseMins m = v)
          ∧ (pyFloatChars m.data = none → parseMins m = 0))
      ∧ parseMins "35:30" = 71 / 2
      ∧ (makeRow (buildAdvMap advs) s).MIN = pyRound (parseMins m) 2 := by
  refine ⟨mem_mergeRows_of hs hd, ?_, ?_, ?_, ?_⟩
  · intro hc
    constructor
    · intro a b ha hb
      simp only [parseMins, hc, if_true, ha, hb]
    · intro hnone
      rcases hnone with hna | hnb
      · simp only [parseMins, hc, if_true, hna]
      · cases ha : pyIntChars ((splitOnChar ':' m.data).getD 0 []) with
        | none => simp only [parseMins, hc, if_true, ha]
        | some a => simp only [parseMins, hc, if_true, ha, hnb]
  · intro hc
    constructor
    · intro v hv
      simp only [parseMins, hc, Bool.false_eq_true, if_false, hv]
    · intro hv
      simp only [parseMins, hc, Bool.false_eq_true, if_false, hv]
  · simp [parseMins, strHasChar, splitOnChar, pyIntChars, splitSign,
      stripWS, digitsToNat]
    norm_num
  · rw [makeRow_MIN, hm]
    rfl

/-- C8: with an empty identifier list from roster discovery, `main`
returns before doing anything: its trace holds no fetch, no CSV write
and no error. -/
theorem claim_C8_empty_roster (ids : List Nat)
    (fetch : List Nat → List StdLog × List AdvLog) (h : ids = []) :
    mainRun ids fetch = [] := by
  subst h
  rfl

/-- C9: in a pagination loop of `fetch_game_logs`, a 429 response makes
the loop sleep 2 seconds and reissue the request with the cursor and
accumulated records untouched, and while the endpoint keeps answering
429 for that cursor the loop runs on without bound, never finishing. -/
theorem claim_C9_rate_limit_retry {α : Type}
    (req : Nat → Option String → Resp α) (st : FetchState α) :
    ((req st.t st.cursor).is429 = true →
        pageStep req st = FetchStep.more 2 ⟨st.cursor, st.acc, st.t + 1⟩)
      ∧ ((∀ n : Nat, (req (st.t + n) st.cursor).is429 = true) →
          ∀ k : Nat, runPages req k st = Sum.inl ⟨st.cursor, st.acc, st.t + k⟩) :=
  ⟨pageStep_of_429 req st, fun hall k => runPages_of_429 req k st hall⟩

/-- C10: when every standard record is a did-not-play sentinel (so also
when the list is empty), `merge_and_export` raises sorting the empty,
column-less DataFrame and writes no CSV file at all. -/
theorem claim_C10_empty_output_raises (stds : List StdLog)
    (advs : List AdvLog) (h : ∀ s ∈ stds, isDNP s.min = true) :
    mergeAndExport stds advs = Except.error "KeyError: Date"
      ∧ ∀ rows : List Row, mergeAndExport stds advs ≠ Except.ok rows := by
  have hrows : mergeRows stds advs = [] := by
    simp only [mergeRows]
    rw [List.filterMap_eq_nil_iff]
    intro s hs
    simp [h s hs]
  have herr : mergeAndExport stds advs = Except.error "KeyError: Date" := by
    simp [mergeAndExport, hrows]
  exact ⟨herr, fun rows hok => by rw [herr] at hok; cases hok⟩

theorem char_toNat_inj {a b : Char} (h : a.toNat = b.toNat) : a = b := by
  have h2 := congrArg Char.ofNat h
  rwa [Char.ofNat_toNat, Char.ofNat_toNat] at h2

theorem chLt_irrefl (a : Char) : chLt a a = false := by
  simp [chLt]

theorem chLt_trans {a b c : Char} (h1 : chLt a b = true)
    (h2 : chLt b c = true) : chLt a c = true := by
  simp only [chLt, decide_eq_true_eq] at h1 h2 ⊢
  omega

theorem chLt_or_of_ne {a b : Char} (h : a ≠ b) :
    chLt a b = true ∨ chLt b a = true := by
  simp only [chLt, decide_eq_true_eq]
  have hne : a.toNat ≠ b.toNat := fun heq => h (char_toNat_inj heq)
  omega

theorem lexLt_irrefl : ∀ l : List Char, lexLt l l = false
  | [] => rfl
  | a :: as => by
    simp [lexLt, chLt_irrefl, lexLt_irrefl as]

theorem lexLt_trans {l1 l2 l3 : List Char} :
    lexLt l1 l2 = true → lexLt l2 l3 = true → lexLt l1 l3 = true := by
  induction l1 generalizing l2 l3 with
  | nil =>
    intro h1 h2
    cases l2 with
    | nil => cases h1
    | cons b bs =>
      cases l3 with
      | nil => cases h2
      | cons c cs => rfl
  | cons a as ih =>
    intro h1 h2
    cases l2 with
    | nil => cases h1
    | cons b bs =>
      cases l3 with
      | nil => cases h2
      | cons c cs =>
        simp only [lexLt, Bool.or_eq_true, Bool.and_eq_true, beq_iff_eq]
          at h1 h2 ⊢
        rcases h1 with h1 | ⟨rfl, h1⟩
        · rcases h2 with h2 | ⟨rfl, h2⟩
          · exact Or.inl (chLt_trans h1 h2)
          · exact Or.inl h1
        · rcases h2 with h2 | ⟨rfl, h2⟩
          · exact Or.inl h2
          · exact Or.inr ⟨rfl, ih h1 h2⟩

theorem lexLt_connex {l1 l2 : List Char} (h : l1 ≠ l2) :
    lexLt l1 l2 = true ∨ lexLt l2 l1 = true := by
  induction l1 generalizing l2 with
  | nil =>
    cases l2 with
    | nil => exact absurd rfl h
    | cons b bs => exact Or.inl rfl
  | cons a as ih =>
    cases l2 with
    | nil => exact Or.inr rfl
    | cons b bs =>
      by_cases hab : a = b
      · subst hab
        have hne : as ≠ bs := fun he => h (by rw [he])
        rcases ih hne with h1 | h1
        · exact Or.inl (by simp [lexLt, h1])
        · exact Or.inr (by simp [lexLt, h1])
      · rcases chLt_or_of_ne hab with h1 | h1
        · exact Or.inl (by simp [lexLt, h1])
        · exact Or.inr (by simp [lexLt, h1])

theorem lexLt_asymm {l1 l2 : List Char} (h : lexLt l1 l2 = true) :
    lexLt l2 l1 = false := by
  by_contra hne
  have h2 : lexLt l2 l1 = true := by
    cases hb : lexLt l2 l1 with
    | false => exact absurd hb hne
    | true => rfl
  have := lexLt_trans h h2
  rw [lexLt_irrefl l1] at this
  cases this

theorem lexLt_false_trans {x y z : List Char} (h1 : lexLt y x = false)
    (h2 : lexLt z y = false) : lexLt z x = false := by
  by_cases hzx : z = x
  · subst hzx; exact lexLt_irrefl z
  cases hb : lexLt z x with
  | false => rfl
  | true =>
    by_cases hxy : x = y
    · subst hxy; rw [hb] at h2; cases h2
    · rcases lexLt_connex hxy with hx | hx
      · have := lexLt_trans hb hx
        rw [this] at h2; cases h2
      · rw [hx] at h1; cases h1

theorem string_ne_data {a b : String} (h : a ≠ b) : a.data ≠ b.data :=
  fun he => h (String.ext he)

theorem rowLE_total (a b : Row) : (rowLE a b || rowLE b a) = true := by
  rw [Bool.or_eq_true]
  by_cases hd : a.Date = b.Date
  · rw [rowLE, if_pos hd, rowLE, if_pos hd.symm]
    cases hp : pyStrLt b.Player a.Player with
    | false => exact Or.inl (by simp)
    | true =>
      refine Or.inr ?_
      rw [pyStrLt] at hp
      rw [pyStrLt, lexLt_asymm hp]
      rfl
  · rw [rowLE, if_neg hd, rowLE, if_neg (fun h2 => hd h2.symm)]
    exact (lexLt_connex (string_ne_data (fun h2 => hd h2.symm))).imp id id

theorem rowLE_trans {a b c : Row} (h1 : rowLE a b = true)
    (h2 : rowLE b c = true) : rowLE a c = true := by
  by_cases hab : a.Date = b.Date <;> by_cases hbc : b.Date = c.Date
  · rw [rowLE, if_pos hab] at h1
    rw [rowLE, if_pos hbc] at h2
    rw [rowLE, if_pos (hab.trans hbc)]
    rw [Bool.not_eq_true', ← Bool.not_eq_true] at h1 h2
    rw [Bool.not_eq_true']
    exact lexLt_false_trans (by simpa [pyStrLt] using h1)
      (by simpa [pyStrLt] using h2)
  · rw [rowLE, if_pos hab] at h1
    rw [rowLE, if_neg hbc] at h2
    have hac : a.Date ≠ c.Date := fun he => hbc (hab.symm.trans he)
    rw [rowLE, if_neg hac, pyStrLt, hab]
    exact h2
  · rw [rowLE, if_neg hab] at h1
    rw [rowLE, if_pos hbc] at h2
    have hac : a.Date ≠ c.Date := fun he => hab (he.trans hbc.symm)
    rw [rowLE, if_neg hac, pyStrLt, ← hbc]
    exact h1
  · rw [rowLE, if_neg hab] at h1
    rw [rowLE, if_neg hbc] at h2
    have hca : lexLt c.Date.data a.Date.data = true := lexLt_trans h2 h1
    have hac : a.Date ≠ c.Date := by
      intro he
      rw [he] at hca
      have := lexLt_asymm hca
      rw [this] at hca
      cases hca
    rw [rowLE, if_neg hac]
    exact hca

theorem rowLE_trans3 :
    ∀ a b c : Row, rowLE a b = true → rowLE b c = true → rowLE a c = true :=
  fun _ _ _ h1 h2 => rowLE_trans h1 h2

theorem filter_sortRows (p : Row → Bool)
    (hp : ∀ a b : Row, p a = true → p b = true → rowLE a b = true)
    (rows : List Row) :
    (sortRows rows).filter p = rows.filter p := by
  have hsub : List.Sublist (rows.filter p) rows := List.filter_sublist rows
  have hpw : (rows.filter p).Pairwise (fun a b => rowLE a b = true) := by
    refine List.pairwise_of_forall_mem_list ?_
    intro a ha b hb
    exact hp a b (List.of_mem_filter ha) (List.of_mem_filter hb)
  have hin : List.Sublist (rows.filter p) (sortRows rows) := by
    rw [sortRows]
    exact List.sublist_mergeSort rowLE_trans3 rowLE_total hpw hsub
  have hfeq : (rows.filter p).filter p = rows.filter p := by
    rw [List.filter_eq_self]
    intro a ha
    exact List.of_mem_filter ha
  have hin2 : List.Sublist (rows.filter p) ((sortRows rows).filter p) := by
    have h3 := List.Sublist.filter p hin
    rwa [hfeq] at h3
  have hperm : List.Perm ((sortRows rows).filter p) (rows.filter p) := by
    rw [sortRows]
    exact (List.mergeSort_perm rows rowLE).filter p
  exact (hin2.eq_of_length hperm.length_eq.symm).symm

/-- C5: the exported row set is sorted by `Date` descending then
`Player` ascending (Python string order), and stably so: rows that tie
on both keys keep the relative order in which the merge loop emitted
them. -/
theorem claim_C5_sort_order (stds : List StdLog) (advs : List AdvLog)
    (rows : List Row) (hok : mergeAndExport stds advs = Except.ok rows) :
    rows.Pairwise (fun a b =>
        (a.Date = b.Date ∧ pyStrLt b.Player a.Player = false)
        ∨ (a.Date ≠ b.Date ∧ pyStrLt b.Date a.Date = true))
      ∧ ∀ d pl : String,
          rows.filter (fun r => decide (r.Date = d ∧ r.Player = pl))
            = (mergeRows stds advs).filter
                (fun r => decide (r.Date = d ∧ r.Player = pl)) := by
  have hrows : rows = sortRows (mergeRows stds advs) := by
    rw [mergeAndExport] at hok
    by_cases he : (mergeRows stds advs).isEmpty
    · rw [if_pos he] at hok; cases hok
    · rw [if_neg he] at hok
      exact (Except.ok.inj hok).symm
  subst hrows
  constructor
  · have hpw : (sortRows (mergeRows stds advs)).Pairwise
        (fun a b => rowLE a b = true) := by
      rw [sortRows]
      exact List.sorted_mergeSort rowLE_trans3 rowLE_total (mergeRows stds advs)
    refine hpw.imp ?_
    intro a b hab
    by_cases hd : a.Date = b.Date
    · rw [rowLE, if_pos hd, Bool.not_eq_true'] at hab
      exact Or.inl ⟨hd, hab⟩
    · rw [rowLE, if_neg hd] at hab
      exact Or.inr ⟨hd, hab⟩
  · intro d pl
    refine filter_sortRows _ ?_ (mergeRows stds advs)
    intro a b ha hb
    rw [decide_eq_true_eq] at ha hb
    rw [rowLE, if_pos (ha.1.trans hb.1.symm), ha.2, hb.2, pyStrLt,
      lexLt_irrefl]
    rfl

/-! ## Witnesses: the claims applied at concrete inputs -/

/-- C1 at the spec's scenario record: `"35:30"` parses to 35.5 and the
row is emitted. -/
theorem claim_C1_minutes_parse_witness :
    sampleStd ∈ [sampleStd] ∧ sampleStd.min = some "35:30"
      ∧ isDNP sampleStd.min = false
      ∧ makeRow (buildAdvMap []) sampleStd ∈ mergeRows [sampleStd] []
      ∧ parseMins "35:30" = 71 / 2 := by
  have h := claim_C1_minutes_parse [sampleStd] [] sampleStd "35:30"
    (List.mem_singleton.mpr rfl) rfl (by decide)
  exact ⟨List.mem_singleton.mpr rfl, rfl, by decide, h.1, h.2.2.2.1⟩

/-- C3 at the scenario record: its emitted row satisfies the `PRA`
identity. -/
theorem claim_C3_derived_stats_witness :
    makeRow (buildAdvMap [sampleAdv]) sampleStd
        ∈ mergeRows [sampleStd] [sampleAdv]
      ∧ (makeRow (buildAdvMap [sampleAdv]) sampleStd).PRA
          = (makeRow (buildAdvMap [sampleAdv]) sampleStd).PTS
            + (makeRow (buildAdvMap [sampleAdv]) sampleStd).REB
            + (makeRow (buildAdvMap [sampleAdv]) sampleStd).AST := by
  have hr : makeRow (buildAdvMap [sampleAdv]) sampleStd
      ∈ mergeRows [sampleStd] [sampleAdv] :=
    mem_mergeRows_of (List.mem_singleton.mpr rfl) (by decide)
  exact ⟨hr, (claim_C3_derived_stats [sampleStd] [sampleAdv] _ hr).1.1⟩

/-- C4 at the scenario record against an empty advanced list: the row
appears with zero usage and null advanced columns. -/
theorem claim_C4_missing_advanced_witness :
    buildAdvMap [] (sampleStd.player.id, sampleStd.game.id) = none
      ∧ (makeRow (buildAdvMap []) sampleStd).Usage = 0
      ∧ (makeRow (buildAdvMap []) sampleStd).DefRtg = none
      ∧ (makeRow (buildAdvMap []) sampleStd).Pace = none := by
  have h := claim_C4_missing_advanced [sampleStd] [] sampleStd
    (List.mem_singleton.mpr rfl) (by decide) (by simp)
  exact ⟨h.1, h.2.2.1, h.2.2.2.1, h.2.2.2.2.2⟩

/-- C5 at the scenario record: the export succeeds and the filter on
the row's own key is unchanged by the sort. -/
theorem claim_C5_sort_order_witness :
    mergeAndExport [sampleStd] []
        = Except.ok (sortRows (mergeRows [sampleStd] []))
      ∧ (sortRows (mergeRows [sampleStd] [])).filter
            (fun r => decide (r.Date = "2024-10-22" ∧ r.Player = "LeBron James"))
          = (mergeRows [sampleStd] []).filter
              (fun r => decide (r.Date = "2024-10-22" ∧ r.Player = "LeBron James")) := by
  have hok : mergeAndExport [sampleStd] []
      = Except.ok (sortRows (mergeRows [sampleStd] [])) := rfl
  exact ⟨hok,
    (claim_C5_sort_order [sampleStd] [] _ hok).2 "2024-10-22" "LeBron James"⟩

/-- C6 at a duplicate advanced key: the later record wins the map. -/
theorem claim_C6_last_record_wins_witness :
    buildAdvMap [sampleAdv, sampleAdv2] (237, 100) = some sampleAdv2 := by
  have h := (claim_C6_last_record_wins [sampleAdv, sampleAdv2] (237, 100)).1
  rw [h]
  rfl

/-- C7 at the scenario record: a 2024-10-22 game is labelled season
2025. -/
theorem claim_C7_season_boundary_witness :
    makeRow (buildAdvMap []) sampleStd ∈ mergeRows [sampleStd] []
      ∧ (makeRow (buildAdvMap []) sampleStd).Season = 2025 := by
  have h := claim_C7_season_boundary [sampleStd] [] sampleStd
    (List.mem_singleton.mpr rfl) (by decide)
  refine ⟨h.1, ?_⟩
  rw [h.2.1]
  decide

/-- C8 at the empty identifier list: the trace is empty. -/
theorem claim_C8_empty_roster_witness :
    mainRun [] (fun _ => ([], [])) = [] :=
  claim_C8_empty_roster [] (fun _ => ([], [])) rfl

/-- C9 at an endpoint that always answers 429: one step keeps the
state, and three steps still run with nothing accumulated. -/
theorem claim_C9_rate_limit_retry_witness :
    pageStep (fun _ _ => Resp.http 429 ([] : List Nat) none) ⟨none, [], 0⟩
        = FetchStep.more 2 ⟨none, [], 1⟩
      ∧ runPages (fun _ _ => Resp.http 429 ([] : List Nat) none) 3 ⟨none, [], 0⟩
        = Sum.inl ⟨none, [], 3⟩ := by
  have h := claim_C9_rate_limit_retry
    (fun _ _ => Resp.http 429 ([] : List Nat) none) ⟨none, [], 0⟩
  exact ⟨h.1 rfl, h.2 (fun n => rfl) 3⟩

/-- C10 at a single did-not-play record: the export raises. -/
theorem claim_C10_empty_output_raises_witness :
    (∀ s ∈ [sampleDNP], isDNP s.min = true)
      ∧ mergeAndExport [sampleDNP] [] = Except.error "KeyError: Date" := by
  have hall : ∀ s ∈ [sampleDNP], isDNP s.min = true := by decide
  exact ⟨hall, (claim_C10_empty_output_raises [sampleDNP] [] hall).1⟩

end NBA
